import Mathlib

/-!
Verification of the chess rules engine: a shallow embedding of the
move-validation module (move generation, check detection, legality
filtering, castling) and of the game-state machine (makeMove /
undoLastMove) of the ChessBoard component, together with theorems
settling the specification claims.

Conventions of the embedding:
* JS numbers used as board coordinates are modelled as Int.
* A board is a total function from (row, col) to an optional piece;
  the source only ever indexes boards inside 0..7, so out-of-range
  cells are simply unconstrained extra state that no modelled code
  path reads without a bounds guard.
* JS arrays of destination squares become Lean lists, in push order.
-/

namespace Chess

inductive PieceColor where
  | white
  | black
deriving DecidableEq

inductive PieceType where
  | pawn
  | rook
  | knight
  | bishop
  | queen
  | king
deriving DecidableEq

/-- A chess piece: `hasMoved` and `justMovedTwo` are optional booleans in the
source (absent means false). -/
structure ChessPiece where
  type : PieceType
  color : PieceColor
  hasMoved : Bool := false
  justMovedTwo : Bool := false
deriving DecidableEq

structure ChessPosition where
  row : Int
  col : Int
deriving DecidableEq

/-- The board: a total mapping from integer coordinates to an optional piece. -/
def ChessBoard := Int → Int → Option ChessPiece

/-- isValidPosition of chess-utils: row and col both at least 0 and below 8. -/
def isValidPosition (pos : ChessPosition) : Bool :=
  pos.row ≥ 0 && pos.row < 8 && pos.col ≥ 0 && pos.col < 8

/-- The 64 squares in row-major order, as iterated by every 0..7 double loop
in the source. -/
def boardSquares : List ChessPosition :=
  (List.range 8).flatMap (fun r => (List.range 8).map (fun c => ⟨(r : Int), (c : Int)⟩))

def otherColor : PieceColor → PieceColor
  | PieceColor.white => PieceColor.black
  | PieceColor.black => PieceColor.white

/-- Pawn movement direction: the local `direction` of getPawnMoves. -/
def pawnDirection (c : PieceColor) : Int :=
  if c = PieceColor.white then -1 else 1

/-- getPawnMoves: forward pushes, then for each diagonal square the regular
capture push followed by the en passant push. -/
def getPawnMoves (board : ChessBoard) (position : ChessPosition) : List ChessPosition :=
  match board position.row position.col with
  | none => []
  | some piece =>
    let direction := pawnDirection piece.color
    let startRow : Int := if piece.color = PieceColor.white then 6 else 1
    let oneForward : ChessPosition := ⟨position.row + direction, position.col⟩
    let forwardMoves : List ChessPosition :=
      if isValidPosition oneForward = true ∧ board oneForward.row oneForward.col = none then
        if position.row = startRow then
          let twoForward : ChessPosition := ⟨position.row + 2 * direction, position.col⟩
          if board twoForward.row twoForward.col = none then [oneForward, twoForward]
          else [oneForward]
        else [oneForward]
      else []
    let capturePositions : List ChessPosition :=
      [⟨position.row + direction, position.col - 1⟩, ⟨position.row + direction, position.col + 1⟩]
    let captureMoves : List ChessPosition :=
      capturePositions.flatMap (fun pos =>
        if isValidPosition pos = true then
          let regular : List ChessPosition :=
            match board pos.row pos.col with
            | some targetPiece =>
              if targetPiece.color ≠ piece.color then [pos] else []
            | none => []
          let enPassantTarget : ChessPosition := ⟨position.row, pos.col⟩
          let enPassant : List ChessPosition :=
            if isValidPosition enPassantTarget = true then
              match board enPassantTarget.row enPassantTarget.col with
              | some adjacentPiece =>
                if adjacentPiece.type = PieceType.pawn ∧
                   adjacentPiece.color ≠ piece.color ∧
                   adjacentPiece.justMovedTwo = true then [pos] else []
              | none => []
            else []
          regular ++ enPassant
        else [])
    forwardMoves ++ captureMoves

def knightOffsets : List (Int × Int) :=
  [(-2, -1), (-2, 1), (-1, -2), (-1, 2), (1, -2), (1, 2), (2, -1), (2, 1)]

def getKnightMoves (board : ChessBoard) (position : ChessPosition) : List ChessPosition :=
  match board position.row position.col with
  | none => []
  | some piece =>
    knightOffsets.flatMap (fun offset =>
      let targetPos : ChessPosition := ⟨position.row + offset.1, position.col + offset.2⟩
      if isValidPosition targetPos = true then
        match board targetPos.row targetPos.col with
        | none => [targetPos]
        | some targetPiece =>
          if targetPiece.color ≠ piece.color then [targetPos] else []
      else [])

/-- One ray of the sliding-piece while loop.  The fuel 8 is exact: once a
square on the ray is inside the board, at most 8 consecutive squares can be,
since the coordinates move strictly monotonically through 0..7; the source
loop therefore performs at most 8 iterations. -/
def rayMoves (board : ChessBoard) (selfColor : PieceColor) :
    Nat → Int → Int → Int → Int → List ChessPosition
  | 0, _, _, _, _ => []
  | Nat.succ fuel, r, c, dr, dc =>
    if isValidPosition ⟨r, c⟩ = true then
      match board r c with
      | none => ⟨r, c⟩ :: rayMoves board selfColor fuel (r + dr) (c + dc) dr dc
      | some currentPiece =>
        if currentPiece.color ≠ selfColor then [⟨r, c⟩] else []
    else []

def straightDirections : List (Int × Int) := [(-1, 0), (1, 0), (0, -1), (0, 1)]

def diagonalDirections : List (Int × Int) := [(-1, -1), (-1, 1), (1, -1), (1, 1)]

def getStraightMoves (board : ChessBoard) (position : ChessPosition) : List ChessPosition :=
  match board position.row position.col with
  | none => []
  | some piece =>
    straightDirections.flatMap (fun dir =>
      rayMoves board piece.color 8 (position.row + dir.1) (position.col + dir.2) dir.1 dir.2)

def getDiagonalMoves (board : ChessBoard) (position : ChessPosition) : List ChessPosition :=
  match board position.row position.col with
  | none => []
  | some piece =>
    diagonalDirections.flatMap (fun dir =>
      rayMoves board piece.color 8 (position.row + dir.1) (position.col + dir.2) dir.1 dir.2)

def getRookMoves (board : ChessBoard) (position : ChessPosition) : List ChessPosition :=
  getStraightMoves board position

def getBishopMoves (board : ChessBoard) (position : ChessPosition) : List ChessPosition :=
  getDiagonalMoves board position

def getQueenMoves (board : ChessBoard) (position : ChessPosition) : List ChessPosition :=
  getStraightMoves board position ++ getDiagonalMoves board position

def kingDirections : List (Int × Int) :=
  [(-1, -1), (-1, 0), (-1, 1), (0, -1), (0, 1), (1, -1), (1, 0), (1, 1)]

/-- getBasicKingMoves: the eight adjacent squares, no castling. -/
def getBasicKingMoves (board : ChessBoard) (position : ChessPosition) : List ChessPosition :=
  match board position.row position.col with
  | none => []
  | some piece =>
    kingDirections.flatMap (fun dir =>
      let targetPos : ChessPosition := ⟨position.row + dir.1, position.col + dir.2⟩
      if isValidPosition targetPos = true then
        match board targetPos.row targetPos.col with
        | none => [targetPos]
        | some targetPiece =>
          if targetPiece.color ≠ piece.color then [targetPos] else []
      else [])

/-- getValidMovesWithoutRecursion: the per-type switch using only basic king
moves, never filtered for legality. -/
def getValidMovesWithoutRecursion (board : ChessBoard) (position : ChessPosition) :
    List ChessPosition :=
  match board position.row position.col with
  | none => []
  | some piece =>
    match piece.type with
    | PieceType.pawn => getPawnMoves board position
    | PieceType.rook => getRookMoves board position
    | PieceType.knight => getKnightMoves board position
    | PieceType.bishop => getBishopMoves board position
    | PieceType.queen => getQueenMoves board position
    | PieceType.king => getBasicKingMoves board position

/-- isPositionUnderAttack: scan every opposing piece and test whether its
recursion-free move set contains the position. -/
def isPositionUnderAttack (board : ChessBoard) (position : ChessPosition)
    (color : PieceColor) : Bool :=
  boardSquares.any (fun sq =>
    match board sq.row sq.col with
    | some piece =>
      if piece.color ≠ color then
        (getValidMovesWithoutRecursion board sq).any
          (fun move => move.row == position.row && move.col == position.col)
      else false
    | none => false)

inductive CastleSide where
  | kingside
  | queenside
deriving DecidableEq

/-- canCastle: the bounded loops of the source (empty squares between king
and rook, attack tests on the king path) are unrolled at their fixed
bounds. -/
def canCastle (board : ChessBoard) (color : PieceColor) (side : CastleSide) : Bool :=
  let row : Int := if color = PieceColor.white then 7 else 0
  match board row 4 with
  | none => false
  | some king =>
    if king.type = PieceType.king ∧ king.color = color ∧ king.hasMoved = false then
      match side with
      | CastleSide.kingside =>
        match board row 7 with
        | none => false
        | some rook =>
          if rook.type = PieceType.rook ∧ rook.color = color ∧ rook.hasMoved = false then
            if board row 5 = none ∧ board row 6 = none then
              if isPositionUnderAttack board ⟨row, 4⟩ color = false ∧
                 isPositionUnderAttack board ⟨row, 5⟩ color = false ∧
                 isPositionUnderAttack board ⟨row, 6⟩ color = false then true
              else false
            else false
          else false
      | CastleSide.queenside =>
        match board row 0 with
        | none => false
        | some rook =>
          if rook.type = PieceType.rook ∧ rook.color = color ∧ rook.hasMoved = false then
            if board row 1 = none ∧ board row 2 = none ∧ board row 3 = none then
              if isPositionUnderAttack board ⟨row, 4⟩ color = false ∧
                 isPositionUnderAttack board ⟨row, 3⟩ color = false ∧
                 isPositionUnderAttack board ⟨row, 2⟩ color = false then true
              else false
            else false
          else false
    else false

/-- getKingMoves: the eight adjacent squares followed by the castling
candidates, which are appended only when the king has not moved. -/
def getKingMoves (board : ChessBoard) (position : ChessPosition) : List ChessPosition :=
  match board position.row position.col with
  | none => []
  | some piece =>
    let basic : List ChessPosition :=
      kingDirections.flatMap (fun dir =>
        let targetPos : ChessPosition := ⟨position.row + dir.1, position.col + dir.2⟩
        if isValidPosition targetPos = true then
          match board targetPos.row targetPos.col with
          | none => [targetPos]
          | some targetPiece =>
            if targetPiece.color ≠ piece.color then [targetPos] else []
        else [])
    let castles : List ChessPosition :=
      if piece.hasMoved = false then
        let row : Int := if piece.color = PieceColor.white then 7 else 0
        (if canCastle board piece.color CastleSide.kingside = true then
          [⟨row, position.col + 2⟩] else []) ++
        (if canCastle board piece.color CastleSide.queenside = true then
          [⟨row, position.col - 2⟩] else [])
      else []
    basic ++ castles

/-- The per-type switch of getValidMoves, before the optional legality
filter; this is exactly what getValidMoves returns when checkForCheck is
false. -/
def pieceMoves (board : ChessBoard) (position : ChessPosition) : List ChessPosition :=
  match board position.row position.col with
  | none => []
  | some piece =>
    match piece.type with
    | PieceType.pawn => getPawnMoves board position
    | PieceType.rook => getRookMoves board position
    | PieceType.knight => getKnightMoves board position
    | PieceType.bishop => getBishopMoves board position
    | PieceType.queen => getQueenMoves board position
    | PieceType.king => getKingMoves board position

/-- The king search of isKingInCheck: first matching square in row-major
order. -/
def findKing (board : ChessBoard) (color : PieceColor) : Option ChessPosition :=
  boardSquares.find? (fun sq =>
    match board sq.row sq.col with
    | some piece => piece.type == PieceType.king && piece.color == color
    | none => false)

/-- simulateMove: writes the destination then clears the origin (so the
origin write wins when they coincide); missing endpoints return the board
unchanged, mirroring the Partial move guard. -/
def simulateMove (board : ChessBoard) (mfrom mto : Option ChessPosition) : ChessBoard :=
  match mfrom, mto with
  | some f, some t =>
    let piece := board f.row f.col
    fun r c =>
      if r = f.row ∧ c = f.col then none
      else if r = t.row ∧ c = t.col then piece
      else board r c
  | _, _ => board

/-- isKingInCheck: locate the king, then test whether any opposing piece has
a destination on it; the source computes the opposing destinations with
getValidMoves(..., false), which is pieceMoves. -/
def isKingInCheck (board : ChessBoard) (color : PieceColor) : Bool :=
  match findKing board color with
  | none => false
  | some kingPosition =>
    boardSquares.any (fun sq =>
      match board sq.row sq.col with
      | some piece =>
        if piece.color ≠ color then
          (pieceMoves board sq).any
            (fun move => move.row == kingPosition.row && move.col == kingPosition.col)
        else false
      | none => false)

/-- getValidMoves: the per-type switch, then (when checkForCheck) the
legality filter simulating each candidate and rejecting self-check. -/
def getValidMoves (board : ChessBoard) (position : ChessPosition)
    (checkForCheck : Bool := true) : List ChessPosition :=
  match board position.row position.col with
  | none => []
  | some piece =>
    let moves := pieceMoves board position
    if checkForCheck then
      moves.filter (fun move =>
        !(isKingInCheck (simulateMove board (some position) (some move)) piece.color))
    else moves

/-- isCheckmate: in check and no piece of the color has any legal move. -/
def isCheckmate (board : ChessBoard) (color : PieceColor) : Bool :=
  if !(isKingInCheck board color) then false
  else
    boardSquares.all (fun sq =>
      match board sq.row sq.col with
      | some piece =>
        if piece.color = color then (getValidMoves board sq).length == 0 else true
      | none => true)

/-- isStalemate: not in check and no piece of the color has any legal move. -/
def isStalemate (board : ChessBoard) (color : PieceColor) : Bool :=
  if isKingInCheck board color then false
  else
    boardSquares.all (fun sq =>
      match board sq.row sq.col with
      | some piece =>
        if piece.color = color then (getValidMoves board sq).length == 0 else true
      | none => true)

inductive GameStatus where
  | playing
  | check
  | checkmate
  | stalemate
  | draw
deriving DecidableEq

structure ChessMove where
  fromPos : ChessPosition
  toPos : ChessPosition
  capturedPiece : Option ChessPiece := none
  promotion : Option PieceType := none
  isCastle : Bool := false
  isEnPassant : Bool := false
deriving DecidableEq

structure CapturedPieces where
  white : List ChessPiece
  black : List ChessPiece
deriving DecidableEq

structure GameState where
  board : ChessBoard
  currentTurn : PieceColor
  status : GameStatus
  selectedPosition : Option ChessPosition
  validMoves : List ChessPosition
  moveHistory : List ChessMove
  capturedPieces : CapturedPieces
  lastMove : Option ChessMove := none

/-- A single assignment newBoard[r][c] = v on a copied board. -/
def setCell (board : ChessBoard) (r c : Int) (v : Option ChessPiece) : ChessBoard :=
  fun r' c' => if r' = r ∧ c' = c then v else board r' c'

/-- The 0..7 double loop of makeMove clearing justMovedTwo on every pawn of
the side to move. -/
def resetJustMovedTwo (board : ChessBoard) (color : PieceColor) : ChessBoard :=
  fun r c =>
    if 0 ≤ r ∧ r < 8 ∧ 0 ≤ c ∧ c < 8 then
      match board r c with
      | some piece =>
        if piece.type = PieceType.pawn ∧ piece.color = color ∧ piece.justMovedTwo = true then
          some { piece with justMovedTwo := false }
        else some piece
      | none => none
    else board r c

/-- Push a captured piece onto the ledger of its own color. -/
def pushCaptured (ledger : CapturedPieces) (piece : ChessPiece) : CapturedPieces :=
  if piece.color = PieceColor.white then { ledger with white := ledger.white ++ [piece] }
  else { ledger with black := ledger.black ++ [piece] }

/-- The status chain of makeMove: checkmate, else stalemate, else check,
else playing, computed on the new board for the side now to move. -/
def statusOf (board : ChessBoard) (color : PieceColor) : GameStatus :=
  if isCheckmate board color then GameStatus.checkmate
  else if isStalemate board color then GameStatus.stalemate
  else if isKingInCheck board color then GameStatus.check
  else GameStatus.playing

/-- The out-of-bounds rejection test at the top of makeMove. -/
def moveOutOfBounds (f t : ChessPosition) : Prop :=
  f.row < 0 ∨ f.row > 7 ∨ f.col < 0 ∨ f.col > 7 ∨
  t.row < 0 ∨ t.row > 7 ∨ t.col < 0 ∨ t.col > 7

instance (f t : ChessPosition) : Decidable (moveOutOfBounds f t) := by
  unfold moveOutOfBounds; infer_instance

/-- makeMove of the ChessBoard component.  Rejections (out of bounds, no
piece at the origin) return the state unchanged; otherwise the move is
applied unconditionally: the destination's occupant is ledgered, a two-square
king move also relocates the rook, justMovedTwo is cleared for the mover's
pawns, a diagonal pawn move onto an empty square removes the en passant
victim, the piece (or its promotion) is placed, the move is recorded, the
turn flips and the status is recomputed. -/
def makeMove (gs : GameState) (f t : ChessPosition)
    (promotionPiece : Option PieceType) : GameState :=
  if moveOutOfBounds f t then gs
  else
    match gs.board f.row f.col with
    | none => gs
    | some movingPiece =>
      let board0 := gs.board
      let capturedPiece := board0 t.row t.col
      let ncp1 :=
        match capturedPiece with
        | some cp => pushCaptured gs.capturedPieces cp
        | none => gs.capturedPieces
      let isCastle : Bool :=
        movingPiece.type == PieceType.king && (f.col - t.col).natAbs == 2
      let board1 :=
        if isCastle then
          let isKingside : Bool := t.col > f.col
          let rookFromCol : Int := if isKingside then 7 else 0
          let rookToCol : Int := if isKingside then f.col + 1 else f.col - 1
          match board0 f.row rookFromCol with
          | some rook =>
            setCell (setCell board0 f.row rookToCol (some { rook with hasMoved := true }))
              f.row rookFromCol none
          | none => board0
        else board0
      let board2 := resetJustMovedTwo board1 gs.currentTurn
      let isEnPassant : Bool :=
        movingPiece.type == PieceType.pawn && f.col != t.col && capturedPiece == none
      let epStep : ChessBoard × CapturedPieces :=
        if isEnPassant then
          match board2 f.row t.col with
          | some capturedPawn =>
            (setCell board2 f.row t.col none, pushCaptured ncp1 capturedPawn)
          | none => (board2, ncp1)
        else (board2, ncp1)
      let board3 := epStep.1
      let ncp2 := epStep.2
      let isMovingTwoSquares : Bool :=
        movingPiece.type == PieceType.pawn && (f.row - t.row).natAbs == 2
      let isPromotion : Bool :=
        movingPiece.type == PieceType.pawn &&
        ((movingPiece.color == PieceColor.white && t.row == 0) ||
         (movingPiece.color == PieceColor.black && t.row == 7))
      let board4 :=
        match promotionPiece with
        | some pp =>
          if isPromotion then
            setCell board3 t.row t.col
              (some { type := pp, color := movingPiece.color, hasMoved := true })
          else
            setCell board3 t.row t.col
              (some { movingPiece with hasMoved := true, justMovedTwo := isMovingTwoSquares })
        | none =>
          setCell board3 t.row t.col
            (some { movingPiece with hasMoved := true, justMovedTwo := isMovingTwoSquares })
      let board5 := setCell board4 f.row f.col none
      let move : ChessMove :=
        { fromPos := f
          toPos := t
          capturedPiece :=
            if isEnPassant then
              match capturedPiece with
              | some cp => some cp
              | none => board5 f.row t.col
            else capturedPiece
          promotion := if isPromotion then promotionPiece else none
          isCastle := isCastle
          isEnPassant := isEnPassant }
      let nextTurn := otherColor gs.currentTurn
      { board := board5
        currentTurn := nextTurn
        status := statusOf board5 nextTurn
        selectedPosition := none
        validMoves := []
        moveHistory := gs.moveHistory ++ [move]
        capturedPieces := ncp2
        lastMove := some move }

/-- The makeMove exposed through the component ref: its structural guards
(non-null endpoints with numeric coordinates) are vacuous in this typed
embedding, so it delegates directly. -/
def refMakeMove (gs : GameState) (move : ChessMove) : GameState :=
  makeMove gs move.fromPos move.toPos move.promotion

/-- undoLastMove of the ChessBoard component. -/
def undoLastMove (gs : GameState) : GameState :=
  match gs.moveHistory.getLast? with
  | none => gs
  | some lastMove =>
    let newMoveHistory := gs.moveHistory.dropLast
    let board0 := gs.board
    let board1 :=
      match board0 lastMove.toPos.row lastMove.toPos.col with
      | some movingPiece =>
        match lastMove.promotion with
        | some _ =>
          setCell board0 lastMove.fromPos.row lastMove.fromPos.col
            (some { type := PieceType.pawn, color := movingPiece.color, hasMoved := true })
        | none =>
          let wasFirstMove : Bool :=
            !movingPiece.hasMoved || gs.moveHistory.length == 1
          setCell board0 lastMove.fromPos.row lastMove.fromPos.col
            (some { movingPiece with hasMoved := if wasFirstMove then false else true })
      | none => board0
    let board2 :=
      match lastMove.capturedPiece with
      | some cp => setCell board1 lastMove.toPos.row lastMove.toPos.col (some cp)
      | none => setCell board1 lastMove.toPos.row lastMove.toPos.col none
    let board3 :=
      if lastMove.isCastle then
        let row := lastMove.fromPos.row
        let isKingside : Bool := lastMove.toPos.col > lastMove.fromPos.col
        let rookFromCol : Int :=
          if isKingside then lastMove.fromPos.col + 1 else lastMove.fromPos.col - 1
        let rookToCol : Int := if isKingside then 7 else 0
        match board2 row rookFromCol with
        | some rook =>
          if rook.type = PieceType.rook then
            setCell (setCell board2 row rookToCol (some { rook with hasMoved := false }))
              row rookFromCol none
          else board2
        | none => board2
      else board2
    let board4 :=
      if lastMove.isEnPassant then
        match lastMove.capturedPiece with
        | some cp => setCell board3 lastMove.fromPos.row lastMove.toPos.col (some cp)
        | none => board3
      else board3
    let ncp1 :=
      match lastMove.capturedPiece with
      | some cp =>
        if cp.color = PieceColor.white then
          { gs.capturedPieces with white := gs.capturedPieces.white.dropLast }
        else
          { gs.capturedPieces with black := gs.capturedPieces.black.dropLast }
      | none => gs.capturedPieces
    { gs with
        board := board4
        currentTurn := otherColor gs.currentTurn
        status := GameStatus.playing
        selectedPosition := none
        validMoves := []
        moveHistory := newMoveHistory
        capturedPieces := ncp1 }

/-! ## Helper lemmas -/

/-- getValidMoves with the check filter disabled is exactly the per-type
switch. -/
theorem getValidMoves_false_eq (board : ChessBoard) (position : ChessPosition) :
    getValidMoves board position false = pieceMoves board position := by
  unfold getValidMoves pieceMoves
  cases h : board position.row position.col with
  | none => rfl
  | some piece => simp

/-! ## Concrete pieces and boards used by witnesses and counterexamples -/

def whitePawn : ChessPiece := ⟨PieceType.pawn, PieceColor.white, false, false⟩

def blackPawnJustMoved : ChessPiece := ⟨PieceType.pawn, PieceColor.black, true, true⟩

def whiteKnightPiece : ChessPiece := ⟨PieceType.knight, PieceColor.white, false, false⟩

def whiteKingHome : ChessPiece := ⟨PieceType.king, PieceColor.white, false, false⟩

def whiteRookHome : ChessPiece := ⟨PieceType.rook, PieceColor.white, false, false⟩

def blackKingHome : ChessPiece := ⟨PieceType.king, PieceColor.black, false, false⟩

def blackRookHome : ChessPiece := ⟨PieceType.rook, PieceColor.black, false, false⟩

/-- A board holding a single white pawn on its starting square a2. -/
def lonePawnBoard : ChessBoard :=
  fun r c => if r = 6 ∧ c = 0 then some whitePawn else none

/-! ## C1: legality soundness of getValidMoves -/

/-- C1: for every board and every occupied position, every destination
returned by getValidMoves with check-filtering enabled is safe: simulating
the move via simulateMove yields a board on which isKingInCheck for the
moving piece's color is false. -/
theorem getValidMoves_selfCheck_safe (board : ChessBoard) (position : ChessPosition)
    (piece : ChessPiece) (hp : board position.row position.col = some piece)
    (m : ChessPosition) (hm : m ∈ getValidMoves board position true) :
    isKingInCheck (simulateMove board (some position) (some m)) piece.color = false := by
  have hgv : getValidMoves board position true =
      (pieceMoves board position).filter (fun move =>
        !(isKingInCheck (simulateMove board (some position) (some move)) piece.color)) := by
    unfold getValidMoves
    rw [hp]
    rfl
  rw [hgv] at hm
  have hpred := (List.mem_filter.mp hm).2
  simpa using hpred

/-- Witness for C1 on the lone-pawn board: the single forward step of the
pawn is in the filtered move set, so the simulated board is check-free. -/
theorem getValidMoves_selfCheck_safe_witness :
    isKingInCheck (simulateMove lonePawnBoard (some ⟨6, 0⟩) (some ⟨5, 0⟩))
      PieceColor.white = false :=
  getValidMoves_selfCheck_safe lonePawnBoard ⟨6, 0⟩ whitePawn (by decide) ⟨5, 0⟩ (by decide)

/-! ## C9: isKingInCheck is total and false when no king exists -/

/-- C9: on a board holding no king of the given color, isKingInCheck returns
false (the king search yields nothing and the function short-circuits). -/
theorem isKingInCheck_no_king (board : ChessBoard) (color : PieceColor)
    (h : boardSquares.all (fun sq =>
        match board sq.row sq.col with
        | some piece => !(piece.type == PieceType.king && piece.color == color)
        | none => true) = true) :
    isKingInCheck board color = false := by
  have hfind : findKing board color = none := by
    apply List.find?_eq_none.mpr
    intro sq hsq
    have hall := List.all_eq_true.mp h sq hsq
    cases hb : board sq.row sq.col with
    | none => simp [hb]
    | some p =>
      rw [hb] at hall
      simp only [hb]
      simp at hall ⊢
      tauto
  unfold isKingInCheck
  rw [hfind]

/-- Witness for C9: the empty board. -/
theorem isKingInCheck_no_king_witness :
    isKingInCheck (fun _ _ => none) PieceColor.white = false :=
  isKingInCheck_no_king (fun _ _ => none) PieceColor.white (by decide)

/-! ## C2: rejection behavior of makeMove -/

/-- The lone-pawn state: white to move, empty history and ledgers. -/
def lonePawnState : GameState :=
  { board := lonePawnBoard
    currentTurn := PieceColor.white
    status := GameStatus.playing
    selectedPosition := none
    validMoves := []
    moveHistory := []
    capturedPieces := ⟨[], []⟩ }

/-- C2 counterexample: the destination (3,3) is not among the pawn's valid
moves from (6,0), yet makeMove applies the move anyway — the board gains the
pawn at (3,3), so the state is not unchanged.  makeMove never consults
getValidMoves. -/
theorem makeMove_illegal_destination_counterexample :
    ¬ ((⟨3, 3⟩ : ChessPosition) ∈ getValidMoves lonePawnState.board ⟨6, 0⟩ true) ∧
    (makeMove lonePawnState ⟨6, 0⟩ ⟨3, 3⟩ none).board 3 3 =
      some ⟨PieceType.pawn, PieceColor.white, true, false⟩ ∧
    lonePawnState.board 3 3 = none := by decide

/-- C2 (amended): makeMove rejects with the entire game state unchanged when
from/to are out of board bounds or no piece exists at from; the legality of
the destination (membership in getValidMoves) is not checked by makeMove. -/
theorem makeMove_rejects_unchanged (gs : GameState) (f t : ChessPosition)
    (promo : Option PieceType)
    (h : moveOutOfBounds f t ∨ gs.board f.row f.col = none) :
    makeMove gs f t promo = gs := by
  by_cases hb : moveOutOfBounds f t
  · unfold makeMove
    rw [if_pos hb]
  · rcases h with h | h
    · exact absurd h hb
    · unfold makeMove
      rw [if_neg hb, h]

/-- Witness for C2 (amended): an out-of-bounds origin leaves the state
untouched. -/
theorem makeMove_rejects_unchanged_witness :
    makeMove lonePawnState ⟨-1, 0⟩ ⟨0, 0⟩ none = lonePawnState :=
  makeMove_rejects_unchanged lonePawnState ⟨-1, 0⟩ ⟨0, 0⟩ none (Or.inl (by decide))

/-! ## C3: promotion handling of makeMove -/

/-- A white pawn one step from the last rank. -/
def promoPawnBoard : ChessBoard :=
  fun r c => if r = 1 ∧ c = 0 then some whitePawn else none

def promoPawnState : GameState :=
  { lonePawnState with board := promoPawnBoard }

/-- C3 counterexample: calling makeMove on a promotion move without a
promotion argument does not suspend: it commits the move, leaving the
unpromoted pawn on the last rank and appending to the history — the state is
mutated, and no promotion-required outcome exists. -/
theorem makeMove_promotion_missing_counterexample :
    (makeMove promoPawnState ⟨1, 0⟩ ⟨0, 0⟩ none).board 0 0 =
      some ⟨PieceType.pawn, PieceColor.white, true, false⟩ ∧
    promoPawnState.board 0 0 = none ∧
    (makeMove promoPawnState ⟨1, 0⟩ ⟨0, 0⟩ none).moveHistory ≠
      promoPawnState.moveHistory := by decide

/-- C3 (amended): makeMove without a promotion argument commits the move,
placing the still-unpromoted pawn at the destination with hasMoved = true
(no suspension, no unchanged state); invoking makeMove from the same
pre-move state with promotion = queen places a queen of the pawn's color at
the destination with hasMoved = true. -/
theorem makeMove_promotion_behavior (gs : GameState) (f t : ChessPosition)
    (piece : ChessPiece)
    (hb : ¬ moveOutOfBounds f t) (hp : gs.board f.row f.col = some piece)
    (hpawn : piece.type = PieceType.pawn)
    (hlast : (piece.color = PieceColor.white ∧ t.row = 0) ∨
             (piece.color = PieceColor.black ∧ t.row = 7))
    (hft : ¬ (t.row = f.row ∧ t.col = f.col)) :
    (makeMove gs f t (some PieceType.queen)).board t.row t.col =
      some ⟨PieceType.queen, piece.color, true, false⟩ ∧
    (makeMove gs f t none).board t.row t.col =
      some { piece with hasMoved := true, justMovedTwo := ((f.row - t.row).natAbs == 2) } := by
  have hprom : (piece.type == PieceType.pawn &&
      ((piece.color == PieceColor.white && t.row == 0) ||
       (piece.color == PieceColor.black && t.row == 7))) = true := by
    rcases hlast with ⟨h1, h2⟩ | ⟨h1, h2⟩ <;> simp [hpawn, h1, h2]
  constructor
  · unfold makeMove
    rw [if_neg hb, hp]
    simp only [hprom, setCell, hpawn]
    simp [hft]
    rw [if_pos hlast]
    simp [setCell]
  · unfold makeMove
    rw [if_neg hb, hp]
    simp only [setCell, hpawn]
    simp [hft]

/-- Witness for C3 (amended): re-invoking with promotion = queen from the
pre-move state places a white queen at the destination, marked moved. -/
theorem makeMove_promotion_behavior_witness :
    (makeMove promoPawnState ⟨1, 0⟩ ⟨0, 0⟩ (some PieceType.queen)).board 0 0 =
      some ⟨PieceType.queen, PieceColor.white, true, false⟩ :=
  (makeMove_promotion_behavior promoPawnState ⟨1, 0⟩ ⟨0, 0⟩ whitePawn (by decide)
    (by decide) (by decide) (Or.inl (by decide)) (by decide)).1

/-! ## C4: the makeMove / undoLastMove round trip -/

/-- The canonical en passant position: white pawn b5, black pawn c5 which
has just advanced two squares. -/
def enPassantBoard : ChessBoard :=
  fun r c =>
    if r = 3 ∧ c = 1 then some whitePawn
    else if r = 3 ∧ c = 2 then some blackPawnJustMoved
    else none

def enPassantState : GameState :=
  { lonePawnState with board := enPassantBoard }

/-- C4 (code bug, evaluated at the failing input): after the en passant
capture (3,1)->(2,2) followed by undoLastMove, the captured black pawn is
NOT restored to (3,2) and the black captured-piece ledger still holds it, so
neither board occupancy nor the ledgers return to their pre-move values.
The recorded move's capturedPiece is null because makeMove reads the
victim's square only after having cleared it, which permanently disables the
undo code's en passant restoration branch. -/
theorem undo_enPassant_round_trip_fails :
    (undoLastMove (makeMove enPassantState ⟨3, 1⟩ ⟨2, 2⟩ none)).board 3 2 = none ∧
    enPassantState.board 3 2 = some blackPawnJustMoved ∧
    (undoLastMove (makeMove enPassantState ⟨3, 1⟩ ⟨2, 2⟩ none)).capturedPieces.black =
      [blackPawnJustMoved] ∧
    enPassantState.capturedPieces.black = [] ∧
    (makeMove enPassantState ⟨3, 1⟩ ⟨2, 2⟩ none).moveHistory =
      [{ fromPos := ⟨3, 1⟩, toPos := ⟨2, 2⟩, capturedPiece := none,
         promotion := none, isCastle := false, isEnPassant := true }] := by decide

/-! ## C5: what move variant backs the check detector -/

/-- Two positions with equal coordinate booleans are equal. -/
theorem chessPosition_eq_of_beq {m kp : ChessPosition}
    (h : (m.row == kp.row && m.col == kp.col) = true) : m = kp := by
  cases m
  cases kp
  simp_all

/-- Black king e8 and rook h8 unmoved with f8/g8 empty, a second unmoved
black king on a4, and the white king on c8.  Kingside castling is eligible
for black, so the a4 king's move set gains the phantom destination (0,2) —
exactly the white king's square. -/
def phantomCastleBoard : ChessBoard :=
  fun r c =>
    if r = 0 ∧ c = 4 then some blackKingHome
    else if r = 0 ∧ c = 7 then some blackRookHome
    else if r = 4 ∧ c = 0 then some blackKingHome
    else if r = 0 ∧ c = 2 then some whiteKingHome
    else none

/-- C5 counterexample: isKingInCheck reports the white king in check on
phantomCastleBoard, yet no black piece reaches the white king's square (0,2)
under the castling-free variant getValidMovesWithoutRecursion.  The check
detector therefore does not use a variant that never expands castling
destinations: it uses getValidMoves with the filter disabled, which appends
castling candidates. -/
theorem isKingInCheck_expands_castling_counterexample :
    isKingInCheck phantomCastleBoard PieceColor.white = true ∧
    findKing phantomCastleBoard PieceColor.white = some ⟨0, 2⟩ ∧
    (boardSquares.all (fun sq =>
      match phantomCastleBoard sq.row sq.col with
      | some p =>
        if p.color ≠ PieceColor.white then
          !((getValidMovesWithoutRecursion phantomCastleBoard sq).any
            (fun m => m.row == 0 && m.col == 2))
        else true
      | none => true)) = true := by decide

/-- C5 (amended): isKingInCheck(board, color) is true iff some piece of the
opposing color has a pseudo-legal destination coinciding with the position
of color's king (the first one in row-major order), where those destinations
are computed by getValidMoves with check-filtering disabled — a variant that
never applies the legality filter but does expand castling destinations for
unmoved kings. -/
theorem isKingInCheck_iff_pseudoLegal_attack (board : ChessBoard) (color : PieceColor)
    (kp : ChessPosition) (hk : findKing board color = some kp) :
    isKingInCheck board color = true ↔
    ∃ sq ∈ boardSquares, ∃ p, board sq.row sq.col = some p ∧ p.color ≠ color ∧
      kp ∈ getValidMoves board sq false := by
  unfold isKingInCheck
  rw [hk, List.any_eq_true]
  constructor
  · rintro ⟨sq, hsq, hpred⟩
    refine ⟨sq, hsq, ?_⟩
    cases hb : board sq.row sq.col with
    | none =>
      rw [hb] at hpred
      simp at hpred
    | some p =>
      rw [hb] at hpred
      have hpred2 : (if p.color ≠ color then
          (pieceMoves board sq).any (fun move => move.row == kp.row && move.col == kp.col)
        else false) = true := hpred
      by_cases hc : p.color ≠ color
      · rw [if_pos hc] at hpred2
        obtain ⟨m, hm, hmeq⟩ := List.any_eq_true.mp hpred2
        have hmk : m = kp := chessPosition_eq_of_beq hmeq
        refine ⟨p, rfl, hc, ?_⟩
        rw [getValidMoves_false_eq]
        rwa [hmk] at hm
      · rw [if_neg hc] at hpred2
        exact absurd hpred2 (by simp)
  · rintro ⟨sq, hsq, p, hb, hc, hm⟩
    refine ⟨sq, hsq, ?_⟩
    rw [hb]
    show (if p.color ≠ color then
        (pieceMoves board sq).any (fun move => move.row == kp.row && move.col == kp.col)
      else false) = true
    rw [if_pos hc]
    apply List.any_eq_true.mpr
    rw [getValidMoves_false_eq] at hm
    exact ⟨kp, hm, by simp⟩

/-- A black rook that has already moved. -/
def blackRookMoved : ChessPiece := ⟨PieceType.rook, PieceColor.black, true, false⟩

/-- White king on e1 skewered by a black rook on e8. -/
def rookCheckBoard : ChessBoard :=
  fun r c =>
    if r = 7 ∧ c = 4 then some whiteKingHome
    else if r = 0 ∧ c = 4 then some blackRookMoved
    else none

/-- Witness for C5 (amended): the black rook's unfiltered moves reach the
white king, so the check detector fires. -/
theorem isKingInCheck_iff_pseudoLegal_attack_witness :
    isKingInCheck rookCheckBoard PieceColor.white = true :=
  (isKingInCheck_iff_pseudoLegal_attack rookCheckBoard PieceColor.white ⟨7, 4⟩
    (by decide)).mpr ⟨⟨0, 4⟩, by decide, blackRookMoved, by decide, by decide, by decide⟩

/-! ## C6: the en passant candidacy condition of getPawnMoves -/

/-- White pawn b5, black pawn c5 with justMovedTwo, and a white knight
already standing on the en passant destination c6. -/
def epOccupiedBoard : ChessBoard :=
  fun r c =>
    if r = 3 ∧ c = 1 then some whitePawn
    else if r = 3 ∧ c = 2 then some blackPawnJustMoved
    else if r = 2 ∧ c = 2 then some whiteKnightPiece
    else none

/-- C6 counterexample: the diagonal en passant destination (2,2) is pushed
into the pawn's move set even though the destination square is not empty —
it holds a friendly white knight, so the destination is not a regular
capture either.  getPawnMoves never tests the destination square in its en
passant branch. -/
theorem enPassant_occupied_destination_counterexample :
    (⟨2, 2⟩ : ChessPosition) ∈ getPawnMoves epOccupiedBoard ⟨3, 1⟩ ∧
    epOccupiedBoard 2 2 = some whiteKnightPiece ∧
    epOccupiedBoard 3 2 = some blackPawnJustMoved := by decide

/-- C6 (amended): a diagonal destination that is not a regular capture (the
destination square holds no enemy piece) is produced for a pawn only when
the adjacent file on the pawn's own rank holds an enemy pawn with
justMovedTwo = true; the destination square being empty is NOT required. -/
theorem getPawnMoves_enPassant_condition (board : ChessBoard) (position : ChessPosition)
    (piece : ChessPiece) (hp : board position.row position.col = some piece)
    (d : ChessPosition) (hmem : d ∈ getPawnMoves board position)
    (hdiag : d.col ≠ position.col)
    (hnotcap : (match board d.row d.col with
      | some q => q.color == piece.color
      | none => true) = true) :
    ∃ adj, board position.row d.col = some adj ∧ adj.type = PieceType.pawn ∧
      adj.color ≠ piece.color ∧ adj.justMovedTwo = true := by
  unfold getPawnMoves at hmem
  rw [hp] at hmem
  simp only [List.mem_append] at hmem
  rcases hmem with hf | hcap
  · exfalso
    apply hdiag
    repeat' split at hf
    all_goals simp only [List.mem_singleton, List.mem_cons, List.not_mem_nil, or_false] at hf
    all_goals first
      | exact hf.elim
      | rw [hf]
      | (rcases hf with hf | hf <;> rw [hf])
  · rw [List.mem_flatMap] at hcap
    obtain ⟨pos, hpos, hd⟩ := hcap
    by_cases hv : isValidPosition pos = true
    case neg => rw [if_neg hv] at hd; exact absurd hd (List.not_mem_nil d)
    case pos =>
    rw [if_pos hv] at hd
    rw [List.mem_append] at hd
    rcases hd with hd | hd
    · exfalso
      cases hbp : board pos.row pos.col with
      | none =>
        rw [hbp] at hd
        exact absurd hd (List.not_mem_nil d)
      | some target =>
        rw [hbp] at hd
        have hd2 : d ∈ (if target.color ≠ piece.color then [pos]
            else ([] : List ChessPosition)) := hd
        by_cases htc : target.color ≠ piece.color
        · rw [if_pos htc] at hd2
          have hdp : d = pos := List.mem_singleton.mp hd2
          rw [hdp, hbp] at hnotcap
          simp at hnotcap
          exact htc hnotcap
        · rw [if_neg htc] at hd2
          exact absurd hd2 (List.not_mem_nil d)
    · have hd2 : d ∈ (if isValidPosition ⟨position.row, pos.col⟩ = true then
          (match board position.row pos.col with
          | some adjacentPiece =>
            if adjacentPiece.type = PieceType.pawn ∧
               adjacentPiece.color ≠ piece.color ∧
               adjacentPiece.justMovedTwo = true then [pos] else []
          | none => [])
        else ([] : List ChessPosition)) := hd
      by_cases hv2 : isValidPosition (⟨position.row, pos.col⟩ : ChessPosition) = true
      case neg => rw [if_neg hv2] at hd2; exact absurd hd2 (List.not_mem_nil d)
      case pos =>
      rw [if_pos hv2] at hd2
      cases hba : board position.row pos.col with
      | none =>
        rw [hba] at hd2
        exact absurd hd2 (List.not_mem_nil d)
      | some adj =>
        rw [hba] at hd2
        have hd3 : d ∈ (if adj.type = PieceType.pawn ∧ adj.color ≠ piece.color ∧
            adj.justMovedTwo = true then [pos] else ([] : List ChessPosition)) := hd2
        by_cases hcond : adj.type = PieceType.pawn ∧ adj.color ≠ piece.color ∧
            adj.justMovedTwo = true
        · rw [if_pos hcond] at hd3
          have hdp : d = pos := List.mem_singleton.mp hd3
          refine ⟨adj, ?_, hcond.1, hcond.2.1, hcond.2.2⟩
          rw [hdp]
          exact hba
        · rw [if_neg hcond] at hd3
          exact absurd hd3 (List.not_mem_nil d)

/-- White pawn b5 and black pawn c5 with justMovedTwo; c6 empty. -/
def epFreeBoard : ChessBoard :=
  fun r c =>
    if r = 3 ∧ c = 1 then some whitePawn
    else if r = 3 ∧ c = 2 then some blackPawnJustMoved
    else none

/-- Witness for C6 (amended): the en passant destination (2,2) is produced
and the adjacent square indeed holds the enemy pawn that just moved two. -/
theorem getPawnMoves_enPassant_condition_witness :
    ∃ adj, epFreeBoard 3 2 = some adj ∧ adj.type = PieceType.pawn ∧
      adj.color ≠ PieceColor.white ∧ adj.justMovedTwo = true :=
  getPawnMoves_enPassant_condition epFreeBoard ⟨3, 1⟩ whitePawn (by decide) ⟨2, 2⟩
    (by decide) (by decide) (by decide)

/-! ## C7: the status transition after a committed move -/

/-- isCheckmate characterized: in check and every own piece has an empty
legal move set. -/
theorem isCheckmate_iff (board : ChessBoard) (color : PieceColor) :
    isCheckmate board color = true ↔
    (isKingInCheck board color = true ∧
     ∀ sq ∈ boardSquares, ∀ p, board sq.row sq.col = some p → p.color = color →
       getValidMoves board sq = []) := by
  unfold isCheckmate
  by_cases hc : isKingInCheck board color = true
  · rw [hc]
    simp only [Bool.not_true, Bool.false_eq_true, if_false]
    rw [List.all_eq_true]
    constructor
    · intro h
      refine ⟨trivial, ?_⟩
      intro sq hsq p hp hcol
      have hpred := h sq hsq
      rw [hp] at hpred
      have hpred2 : (if p.color = color then
          ((getValidMoves board sq).length == 0) else true) = true := hpred
      rw [if_pos hcol] at hpred2
      simpa [List.length_eq_zero] using hpred2
    · rintro ⟨-, h⟩
      intro sq hsq
      cases hb : board sq.row sq.col with
      | none => exact rfl
      | some p =>
        show (if p.color = color then
            ((getValidMoves board sq).length == 0) else true) = true
        by_cases hcol : p.color = color
        · rw [if_pos hcol]
          have hnil := h sq hsq p hb hcol
          simp [hnil]
        · rw [if_neg hcol]
  · have hc' : isKingInCheck board color = false := by simpa using hc
    rw [hc']
    simp [hc']

/-- isStalemate characterized: not in check and every own piece has an empty
legal move set. -/
theorem isStalemate_iff (board : ChessBoard) (color : PieceColor) :
    isStalemate board color = true ↔
    (isKingInCheck board color = false ∧
     ∀ sq ∈ boardSquares, ∀ p, board sq.row sq.col = some p → p.color = color →
       getValidMoves board sq = []) := by
  unfold isStalemate
  by_cases hc : isKingInCheck board color = true
  · rw [hc]
    simp [hc]
  · have hc' : isKingInCheck board color = false := by simpa using hc
    rw [hc']
    simp only [Bool.false_eq_true, if_false]
    rw [List.all_eq_true]
    constructor
    · intro h
      refine ⟨trivial, ?_⟩
      intro sq hsq p hp hcol
      have hpred := h sq hsq
      rw [hp] at hpred
      have hpred2 : (if p.color = color then
          ((getValidMoves board sq).length == 0) else true) = true := hpred
      rw [if_pos hcol] at hpred2
      simpa [List.length_eq_zero] using hpred2
    · rintro ⟨-, h⟩
      intro sq hsq
      cases hb : board sq.row sq.col with
      | none => exact rfl
      | some p =>
        show (if p.color = color then
            ((getValidMoves board sq).length == 0) else true) = true
        by_cases hcol : p.color = color
        · rw [if_pos hcol]
          have hnil := h sq hsq p hb hcol
          simp [hnil]
        · rw [if_neg hcol]

/-- Checkmate and stalemate are mutually exclusive: checkmate requires the
king attacked, stalemate requires it safe. -/
theorem isStalemate_eq_false_of_isCheckmate (board : ChessBoard) (color : PieceColor)
    (h : isCheckmate board color = true) : isStalemate board color = false := by
  have hc : isKingInCheck board color = true := by
    by_contra hc
    have hc' : isKingInCheck board color = false := by simpa using hc
    unfold isCheckmate at h
    rw [hc'] at h
    simp at h
  unfold isStalemate
  rw [hc]
  simp

theorem statusOf_eq_checkmate_iff (board : ChessBoard) (color : PieceColor) :
    statusOf board color = GameStatus.checkmate ↔ isCheckmate board color = true := by
  unfold statusOf
  by_cases h : isCheckmate board color = true
  · simp [h]
  · have h' : isCheckmate board color = false := by simpa using h
    simp only [h', Bool.false_eq_true, if_false, iff_false]
    split
    · simp [h']
    · split <;> simp [h']

theorem statusOf_eq_stalemate_iff (board : ChessBoard) (color : PieceColor) :
    statusOf board color = GameStatus.stalemate ↔ isStalemate board color = true := by
  unfold statusOf
  by_cases h : isCheckmate board color = true
  · have hs := isStalemate_eq_false_of_isCheckmate board color h
    simp [h, hs]
  · have h' : isCheckmate board color = false := by simpa using h
    simp only [h', Bool.false_eq_true, if_false]
    by_cases h2 : isStalemate board color = true
    · simp [h2]
    · have h2' : isStalemate board color = false := by simpa using h2
      simp only [h2', Bool.false_eq_true, if_false, iff_false]
      split <;> simp [h2']

/-- A committed makeMove assigns exactly the status chain computed on the
resulting board for the resulting side to move. -/
theorem makeMove_status_eq (gs : GameState) (f t : ChessPosition)
    (promo : Option PieceType) (piece : ChessPiece)
    (hb : ¬ moveOutOfBounds f t) (hp : gs.board f.row f.col = some piece) :
    (makeMove gs f t promo).status =
      statusOf (makeMove gs f t promo).board (makeMove gs f t promo).currentTurn := by
  unfold makeMove
  rw [if_neg hb, hp]

/-- C7: after a committed move, the resulting status is checkmate iff the
side now to move has zero legal moves across all its pieces and its king is
attacked, and stalemate iff it has zero legal moves and its king is not
attacked. -/
theorem makeMove_status_characterization (gs : GameState) (f t : ChessPosition)
    (promo : Option PieceType) (piece : ChessPiece)
    (hb : ¬ moveOutOfBounds f t) (hp : gs.board f.row f.col = some piece) :
    ((makeMove gs f t promo).status = GameStatus.checkmate ↔
      ((∀ sq ∈ boardSquares, ∀ p,
          (makeMove gs f t promo).board sq.row sq.col = some p →
          p.color = (makeMove gs f t promo).currentTurn →
          getValidMoves (makeMove gs f t promo).board sq = []) ∧
       isKingInCheck (makeMove gs f t promo).board
         (makeMove gs f t promo).currentTurn = true)) ∧
    ((makeMove gs f t promo).status = GameStatus.stalemate ↔
      ((∀ sq ∈ boardSquares, ∀ p,
          (makeMove gs f t promo).board sq.row sq.col = some p →
          p.color = (makeMove gs f t promo).currentTurn →
          getValidMoves (makeMove gs f t promo).board sq = []) ∧
       isKingInCheck (makeMove gs f t promo).board
         (makeMove gs f t promo).currentTurn = false)) := by
  rw [makeMove_status_eq gs f t promo piece hb hp]
  constructor
  · rw [statusOf_eq_checkmate_iff, isCheckmate_iff]
    tauto
  · rw [statusOf_eq_stalemate_iff, isStalemate_iff]
    tauto

/-- Witness for C7: the pawn push (6,0)->(5,0) on the lone-pawn board. -/
theorem makeMove_status_characterization_witness :
    ((makeMove lonePawnState ⟨6, 0⟩ ⟨5, 0⟩ none).status = GameStatus.checkmate ↔
      ((∀ sq ∈ boardSquares, ∀ p,
          (makeMove lonePawnState ⟨6, 0⟩ ⟨5, 0⟩ none).board sq.row sq.col = some p →
          p.color = (makeMove lonePawnState ⟨6, 0⟩ ⟨5, 0⟩ none).currentTurn →
          getValidMoves (makeMove lonePawnState ⟨6, 0⟩ ⟨5, 0⟩ none).board sq = []) ∧
       isKingInCheck (makeMove lonePawnState ⟨6, 0⟩ ⟨5, 0⟩ none).board
         (makeMove lonePawnState ⟨6, 0⟩ ⟨5, 0⟩ none).currentTurn = true)) ∧
    ((makeMove lonePawnState ⟨6, 0⟩ ⟨5, 0⟩ none).status = GameStatus.stalemate ↔
      ((∀ sq ∈ boardSquares, ∀ p,
          (makeMove lonePawnState ⟨6, 0⟩ ⟨5, 0⟩ none).board sq.row sq.col = some p →
          p.color = (makeMove lonePawnState ⟨6, 0⟩ ⟨5, 0⟩ none).currentTurn →
          getValidMoves (makeMove lonePawnState ⟨6, 0⟩ ⟨5, 0⟩ none).board sq = []) ∧
       isKingInCheck (makeMove lonePawnState ⟨6, 0⟩ ⟨5, 0⟩ none).board
         (makeMove lonePawnState ⟨6, 0⟩ ⟨5, 0⟩ none).currentTurn = false)) :=
  makeMove_status_characterization lonePawnState ⟨6, 0⟩ ⟨5, 0⟩ none whitePawn
    (by decide) (by decide)

/-! ## C8: castling eligibility -/

/-- The castling-eligibility conditions as the specification words them:
king at its home square unmoved, the corresponding rook at its home square
unmoved, all squares strictly between king and rook empty, and none of the
king's current square, the square it crosses and its destination attacked by
the opponent (via the recursion-safe attack test). -/
def canCastleSpec (board : ChessBoard) (color : PieceColor) (side : CastleSide) : Prop :=
  let row : Int := if color = PieceColor.white then 7 else 0
  let rookCol : Int := match side with | CastleSide.kingside => 7 | CastleSide.queenside => 0
  let crossCol : Int := match side with | CastleSide.kingside => 5 | CastleSide.queenside => 3
  let destCol : Int := match side with | CastleSide.kingside => 6 | CastleSide.queenside => 2
  (∃ king, board row 4 = some king ∧ king.type = PieceType.king ∧
    king.color = color ∧ king.hasMoved = false) ∧
  (∃ rook, board row rookCol = some rook ∧ rook.type = PieceType.rook ∧
    rook.color = color ∧ rook.hasMoved = false) ∧
  (∀ c : Int, min 4 rookCol < c → c < max 4 rookCol → board row c = none) ∧
  isPositionUnderAttack board ⟨row, 4⟩ color = false ∧
  isPositionUnderAttack board ⟨row, crossCol⟩ color = false ∧
  isPositionUnderAttack board ⟨row, destCol⟩ color = false

/-- canCastle computes exactly the specification's eligibility conditions. -/
theorem canCastle_iff_spec (board : ChessBoard) (color : PieceColor) (side : CastleSide) :
    canCastle board color side = true ↔ canCastleSpec board color side := by
  unfold canCastle canCastleSpec
  cases side <;> dsimp only
  case kingside =>
    cases hk : board (if color = PieceColor.white then (7 : Int) else 0) 4 with
    | none => simp
    | some king =>
      dsimp only
      by_cases hkc : king.type = PieceType.king ∧ king.color = color ∧ king.hasMoved = false
      · rw [if_pos hkc]
        cases hr : board (if color = PieceColor.white then (7 : Int) else 0) 7 with
        | none => simp
        | some rook =>
          dsimp only
          by_cases hrc : rook.type = PieceType.rook ∧ rook.color = color ∧
              rook.hasMoved = false
          · rw [if_pos hrc]
            by_cases hemp : board (if color = PieceColor.white then (7 : Int) else 0) 5 = none ∧
                board (if color = PieceColor.white then (7 : Int) else 0) 6 = none
            · rw [if_pos hemp]
              by_cases hatt :
                  isPositionUnderAttack board
                    ⟨if color = PieceColor.white then (7 : Int) else 0, 4⟩ color = false ∧
                  isPositionUnderAttack board
                    ⟨if color = PieceColor.white then (7 : Int) else 0, 5⟩ color = false ∧
                  isPositionUnderAttack board
                    ⟨if color = PieceColor.white then (7 : Int) else 0, 6⟩ color = false
              · rw [if_pos hatt]
                constructor
                · intro _
                  refine ⟨⟨king, rfl, hkc.1, hkc.2.1, hkc.2.2⟩,
                    ⟨rook, rfl, hrc.1, hrc.2.1, hrc.2.2⟩, ?_, hatt.1, hatt.2.1, hatt.2.2⟩
                  intro c hc1 hc2
                  have hc : c = 5 ∨ c = 6 := by omega
                  rcases hc with rfl | rfl
                  · exact hemp.1
                  · exact hemp.2
                · intro _
                  rfl
              · rw [if_neg hatt]
                simp only [Bool.false_eq_true, false_iff]
                rintro ⟨-, -, -, h4, h5, h6⟩
                exact hatt ⟨h4, h5, h6⟩
            · rw [if_neg hemp]
              simp only [Bool.false_eq_true, false_iff]
              rintro ⟨-, -, hbet, -⟩
              refine hemp ⟨?_, ?_⟩
              · exact hbet 5 (by omega) (by omega)
              · exact hbet 6 (by omega) (by omega)
          · rw [if_neg hrc]
            simp only [Bool.false_eq_true, false_iff]
            rintro ⟨-, ⟨rook2, hr2, ht, hc2, hm2⟩, -⟩
            injection hr2 with hr2
            exact hrc ⟨hr2 ▸ ht, hr2 ▸ hc2, hr2 ▸ hm2⟩
      · rw [if_neg hkc]
        simp only [Bool.false_eq_true, false_iff]
        rintro ⟨⟨king2, hk2, ht, hc2, hm2⟩, -⟩
        injection hk2 with hk2
        exact hkc ⟨hk2 ▸ ht, hk2 ▸ hc2, hk2 ▸ hm2⟩
  case queenside =>
    cases hk : board (if color = PieceColor.white then (7 : Int) else 0) 4 with
    | none => simp
    | some king =>
      dsimp only
      by_cases hkc : king.type = PieceType.king ∧ king.color = color ∧ king.hasMoved = false
      · rw [if_pos hkc]
        cases hr : board (if color = PieceColor.white then (7 : Int) else 0) 0 with
        | none => simp
        | some rook =>
          dsimp only
          by_cases hrc : rook.type = PieceType.rook ∧ rook.color = color ∧
              rook.hasMoved = false
          · rw [if_pos hrc]
            by_cases hemp : board (if color = PieceColor.white then (7 : Int) else 0) 1 = none ∧
                board (if color = PieceColor.white then (7 : Int) else 0) 2 = none ∧
                board (if color = PieceColor.white then (7 : Int) else 0) 3 = none
            · rw [if_pos hemp]
              by_cases hatt :
                  isPositionUnderAttack board
                    ⟨if color = PieceColor.white then (7 : Int) else 0, 4⟩ color = false ∧
                  isPositionUnderAttack board
                    ⟨if color = PieceColor.white then (7 : Int) else 0, 3⟩ color = false ∧
                  isPositionUnderAttack board
                    ⟨if color = PieceColor.white then (7 : Int) else 0, 2⟩ color = false
              · rw [if_pos hatt]
                constructor
                · intro _
                  refine ⟨⟨king, rfl, hkc.1, hkc.2.1, hkc.2.2⟩,
                    ⟨rook, rfl, hrc.1, hrc.2.1, hrc.2.2⟩, ?_, hatt.1, hatt.2.1, hatt.2.2⟩
                  intro c hc1 hc2
                  have hc : c = 1 ∨ c = 2 ∨ c = 3 := by omega
                  rcases hc with rfl | rfl | rfl
                  · exact hemp.1
                  · exact hemp.2.1
                  · exact hemp.2.2
                · intro _
                  rfl
              · rw [if_neg hatt]
                simp only [Bool.false_eq_true, false_iff]
                rintro ⟨-, -, -, h4, h3, h2⟩
                exact hatt ⟨h4, h3, h2⟩
            · rw [if_neg hemp]
              simp only [Bool.false_eq_true, false_iff]
              rintro ⟨-, -, hbet, -⟩
              refine hemp ⟨?_, ?_, ?_⟩
              · exact hbet 1 (by omega) (by omega)
              · exact hbet 2 (by omega) (by omega)
              · exact hbet 3 (by omega) (by omega)
          · rw [if_neg hrc]
            simp only [Bool.false_eq_true, false_iff]
            rintro ⟨-, ⟨rook2, hr2, ht, hc2, hm2⟩, -⟩
            injection hr2 with hr2
            exact hrc ⟨hr2 ▸ ht, hr2 ▸ hc2, hr2 ▸ hm2⟩
      · rw [if_neg hkc]
        simp only [Bool.false_eq_true, false_iff]
        rintro ⟨⟨king2, hk2, ht, hc2, hm2⟩, -⟩
        injection hk2 with hk2
        exact hkc ⟨hk2 ▸ ht, hk2 ▸ hc2, hk2 ▸ hm2⟩

/-- A two-square king destination is included in getKingMoves only when the
corresponding canCastle test holds: the eight basic king offsets change the
column by at most one, so a column shift of two can only come from the
castling pushes, which are guarded by canCastle. -/
theorem castleDest_only_if_canCastle (board : ChessBoard) (position : ChessPosition)
    (piece : ChessPiece) (hp : board position.row position.col = some piece)
    (dest : ChessPosition) (hd : dest ∈ getKingMoves board position) :
    (dest.col = position.col + 2 → canCastle board piece.color CastleSide.kingside = true) ∧
    (dest.col = position.col - 2 → canCastle board piece.color CastleSide.queenside = true) := by
  unfold getKingMoves at hd
  rw [hp] at hd
  simp only [List.mem_append] at hd
  have hbasic : ∀ hb : dest ∈ kingDirections.flatMap (fun dir =>
      let targetPos : ChessPosition := ⟨position.row + dir.1, position.col + dir.2⟩
      if isValidPosition targetPos = true then
        match board targetPos.row targetPos.col with
        | none => [targetPos]
        | some targetPiece =>
          if targetPiece.color ≠ piece.color then [targetPos] else []
      else []),
      dest.col ≠ position.col + 2 ∧ dest.col ≠ position.col - 2 := by
    intro hb
    rw [List.mem_flatMap] at hb
    obtain ⟨dir, hdir, hm⟩ := hb
    have hcol : dest.col = position.col + dir.2 := by
      by_cases hv : isValidPosition ⟨position.row + dir.1, position.col + dir.2⟩ = true
      · rw [if_pos hv] at hm
        cases hb2 : board (position.row + dir.1) (position.col + dir.2) with
        | none =>
          rw [hb2] at hm
          have hde := List.mem_singleton.mp hm
          rw [hde]
        | some tp =>
          rw [hb2] at hm
          have hm2 : dest ∈ (if tp.color ≠ piece.color then
              [(⟨position.row + dir.1, position.col + dir.2⟩ : ChessPosition)]
            else ([] : List ChessPosition)) := hm
          by_cases htc : tp.color ≠ piece.color
          · rw [if_pos htc] at hm2
            have hde := List.mem_singleton.mp hm2
            rw [hde]
          · rw [if_neg htc] at hm2
            exact absurd hm2 (List.not_mem_nil dest)
      · rw [if_neg hv] at hm
        exact absurd hm (List.not_mem_nil dest)
    have hdir2 : dir.2 = -1 ∨ dir.2 = 0 ∨ dir.2 = 1 := by
      fin_cases hdir <;> simp
    rcases hdir2 with h | h | h <;> rw [h] at hcol <;> omega
  constructor
  · intro hc2
    rcases hd with hb | hd
    · exact absurd hc2 (hbasic hb).1
    · by_cases hmv : piece.hasMoved = false
      · rw [if_pos hmv] at hd
        rw [List.mem_append] at hd
        rcases hd with hd | hd
        · by_cases hck : canCastle board piece.color CastleSide.kingside = true
          · exact hck
          · rw [if_neg hck] at hd
            exact absurd hd (List.not_mem_nil dest)
        · exfalso
          by_cases hcq : canCastle board piece.color CastleSide.queenside = true
          · rw [if_pos hcq] at hd
            have hde := List.mem_singleton.mp hd
            rw [hde] at hc2
            simp at hc2
            omega
          · rw [if_neg hcq] at hd
            exact absurd hd (List.not_mem_nil dest)
      · rw [if_neg hmv] at hd
        exact absurd hd (List.not_mem_nil dest)
  · intro hc2
    rcases hd with hb | hd
    · exact absurd hc2 (hbasic hb).2
    · by_cases hmv : piece.hasMoved = false
      · rw [if_pos hmv] at hd
        rw [List.mem_append] at hd
        rcases hd with hd | hd
        · exfalso
          by_cases hck : canCastle board piece.color CastleSide.kingside = true
          · rw [if_pos hck] at hd
            have hde := List.mem_singleton.mp hd
            rw [hde] at hc2
            simp at hc2
            omega
          · rw [if_neg hck] at hd
            exact absurd hd (List.not_mem_nil dest)
        · by_cases hcq : canCastle board piece.color CastleSide.queenside = true
          · exact hcq
          · rw [if_neg hcq] at hd
            exact absurd hd (List.not_mem_nil dest)
      · rw [if_neg hmv] at hd
        exact absurd hd (List.not_mem_nil dest)

/-- C8: canCastle returns true exactly under the specification's
eligibility conditions (king and rook at their home squares unmoved, all
squares strictly between them empty, king path not attacked), and the
two-square king destinations appear in getKingMoves only when the
corresponding canCastle test holds. -/
theorem canCastle_characterization :
    (∀ (board : ChessBoard) (color : PieceColor) (side : CastleSide),
      canCastle board color side = true ↔ canCastleSpec board color side) ∧
    (∀ (board : ChessBoard) (position : ChessPosition) (piece : ChessPiece),
      board position.row position.col = some piece →
      ∀ dest ∈ getKingMoves board position,
        (dest.col = position.col + 2 →
          canCastle board piece.color CastleSide.kingside = true) ∧
        (dest.col = position.col - 2 →
          canCastle board piece.color CastleSide.queenside = true)) :=
  ⟨canCastle_iff_spec, fun board position piece hp dest hd =>
    castleDest_only_if_canCastle board position piece hp dest hd⟩

/-- White king e1 and rook h1, both unmoved, nothing else on the board:
kingside castling is eligible. -/
def castleReadyBoard : ChessBoard :=
  fun r c =>
    if r = 7 ∧ c = 4 then some whiteKingHome
    else if r = 7 ∧ c = 7 then some whiteRookHome
    else none

/-- Witness for C8: the castling destination g1 is in the king's move set,
and the characterization yields canCastle. -/
theorem canCastle_characterization_witness :
    canCastle castleReadyBoard PieceColor.white CastleSide.kingside = true :=
  (canCastle_characterization.2 castleReadyBoard ⟨7, 4⟩ whiteKingHome (by decide)
    ⟨7, 6⟩ (by decide)).1 (by decide)

end Chess
